import Mathlib

/-!
Verification of the vcoding workspace core: a shallow embedding of the
identity/metadata store (`core/paths.py`), the workspace lifecycle controller
(`workspace/workspace.py`) and the pieces of the backend/transport contracts
the controller relies on, together with proofs of the spec's testable
properties about them.

Conventions of the embedding:
* POSIX paths are modelled at the component level: a `Spelling` is what
  `pathlib.Path(<string>)` parses (absolute flag plus raw components, where
  an empty component encodes a doubled or trailing separator and `"."`/`".."`
  appear literally).  `Path.resolve()` is modelled as resolution against an
  explicit current working directory on a symlink-free filesystem.
* `hashlib.sha256(...).hexdigest()` of the UTF-8 encoding is an external
  library call; it is modelled as an opaque `digest : String → String`
  parameter (the composition of UTF-8 encoding and the hex digest, both pure
  functions of the string).
* Filesystem existence checks (`Path.exists()`) are a predicate parameter
  `ex : String → Bool` on resolved path strings.
* Stateful methods are explicit state passing; calls to the backend, the
  transport and the logger are reified as effect lists so that frame
  properties ("replay never writes the ledger") are statements about which
  effects are emitted.
-/

/-- One entry of the sync ledger, `{"source": ..., "destination": ...}` in
`metadata.json`: `source` is the resolved host path string, `destination`
the container path. -/
structure SyncRecord where
  source : String
  destination : String
deriving DecidableEq, Repr

/-- The parse of a path string, as `pathlib.PurePosixPath` sees it: whether
the spelling starts with a separator, and the raw components between
separators (`""` components arise from doubled or trailing separators,
`"."` and `".."` are kept literally at parse time). -/
structure Spelling where
  absolute : Bool
  parts : List String
deriving DecidableEq, Repr

/-- `PurePosixPath` construction drops empty components and `"."` components
(`Path("/a//./b/")` equals `Path("/a/b")`). -/
def purePathParts (parts : List String) : List String :=
  parts.filter (fun c => c != "" && c != ".")

/-- One step of `..`-elimination during `Path.resolve()`: `".."` pops the
last component (at the root it stays at the root), anything else is
appended. -/
def resolveStep (acc : List String) (c : String) : List String :=
  if c = ".." then acc.dropLast else acc ++ [c]

/-- `Path.resolve()` on a symlink-free filesystem: a relative spelling is
interpreted against the current working directory `cwd` (given as its
canonical component list), then `".."` components are eliminated. -/
def resolveParts (cwd : List String) (sp : Spelling) : List String :=
  (if sp.absolute then purePathParts sp.parts
   else cwd ++ purePathParts sp.parts).foldl resolveStep []

/-- `str(path.resolve())`: the canonical absolute path string. -/
def resolvedStr (cwd : List String) (sp : Spelling) : String :=
  "/" ++ String.intercalate "/" (resolveParts cwd sp)

/-- Python's `s.rstrip("/")`: drop every trailing separator character. -/
def rstripSlash (s : String) : String :=
  String.mk (((s.data.reverse).dropWhile (fun c => c = '/')).reverse)

/-- `compute_target_hash` (core/paths.py): resolve the target path, replace
backslashes by forward slashes, strip trailing separators, and digest the
UTF-8 bytes of the result.  `digest` stands for
`hashlib.sha256(· .encode("utf-8")).hexdigest()`. -/
def compute_target_hash (digest : String → String) (cwd : List String)
    (target_path : Spelling) : String :=
  digest (rstripSlash ((resolvedStr cwd target_path).replace "\\" "/"))

/-- `WorkspaceMetadata.add_synced_file` on the `synced_files` list, after the
source has been resolved to a string: the first entry with the same source
has its destination overwritten in place; if none matches, a new entry is
appended at the end. -/
def add_synced_file : List SyncRecord → String → String → List SyncRecord
  | [], src, dst => [⟨src, dst⟩]
  | e :: rest, src, dst =>
    if e.source = src then { e with destination := dst } :: rest
    else e :: add_synced_file rest src dst

/-- `WorkspaceMetadata.add_synced_file` as called: the caller passes a host
`Path`, the method stores `str(source.resolve())`. -/
def add_synced_file_path (records : List SyncRecord) (cwd : List String)
    (source : Spelling) (destination : String) : List SyncRecord :=
  add_synced_file records (resolvedStr cwd source) destination

/-- `WorkspaceMetadata.remove_synced_file`: pop the first entry whose source
matches; report whether one was found. -/
def remove_synced_file : List SyncRecord → String → List SyncRecord × Bool
  | [], _ => ([], false)
  | e :: rest, src =>
    if e.source = src then (rest, true)
    else
      let r := remove_synced_file rest src
      (e :: r.1, r.2)

/-- The loop body of `WorkspaceMetadata.prune_synced_files`: walk the ledger
once, keeping entries whose source still exists (`remaining`, first
component) and collecting the sources of the others (`removed`, second
component), in ledger order. -/
def pruneSplit : List SyncRecord → (String → Bool) → List SyncRecord × List String
  | [], _ => ([], [])
  | e :: rest, ex =>
    let p := pruneSplit rest ex
    if ex e.source then (e :: p.1, p.2) else (p.1, e.source :: p.2)

/-- The in-memory form of `metadata.json` (`WorkspaceMetadata._data`): every
field may be missing (a freshly-loaded empty dict has none of them). -/
structure MetaData where
  target_path : Option String := none
  target_type : Option String := none
  created_at : Option String := none
  last_accessed : Option String := none
  synced_files : List SyncRecord := []
deriving DecidableEq, Repr

/-- `WorkspaceMetadata.prune_synced_files`: drop every record whose source no
longer exists, return the new state, the removed sources, and whether the
metadata file was written (`_save` runs only when something was removed). -/
def prune_synced_files (md : MetaData) (ex : String → Bool) :
    MetaData × List String × Bool :=
  let p := pruneSplit md.synced_files ex
  if p.2.isEmpty then (md, p.2, false)
  else ({ md with synced_files := p.1 }, p.2, true)

/-- The destination the ledger currently associates with a source: the
destination of the first matching record (how both replay and the tests read
the ledger back). -/
def findDestination (records : List SyncRecord) (src : String) : Option String :=
  (records.find? (fun e => e.source == src)).map SyncRecord.destination

/-- The side effects a workspace operation can request, reified so frame
properties can be stated: the two non-mutating ones (`copyTo` via the
backend, `warnMissing` via the logger) and the three that touch the
persisted metadata. -/
inductive WsEffect where
  | copyTo (source destination : String) (flatten : Bool)
  | copyFrom (remote localPath : String)
  | warnMissing (source : String)
  | addRecord (source destination : String)
  | removeRecord (source : String)
  | saveMetadata
deriving DecidableEq, Repr

/-- How each reified effect acts on the in-memory metadata: only the ledger
operations change it; backend copies and log warnings do not. -/
def applyWsEffect (md : MetaData) : WsEffect → MetaData
  | WsEffect.addRecord s d =>
      { md with synced_files := add_synced_file md.synced_files s d }
  | WsEffect.removeRecord s =>
      { md with synced_files := (remove_synced_file md.synced_files s).1 }
  | _ => md

/-- `Workspace._resync_files`: for each ledger record, if the source still
exists issue `backend.copy_to(cid, source, destination, flatten)` with
`flatten = (source == self._target_path)`; otherwise log a warning and leave
the record alone.  (A failing copy is caught, logged and skipped; the effect
records the attempted call.) -/
def resync_files (records : List SyncRecord) (ex : String → Bool)
    (target_path : String) : List WsEffect :=
  records.map (fun e =>
    if ex e.source then WsEffect.copyTo e.source e.destination (e.source == target_path)
    else WsEffect.warnMissing e.source)

/-- The transport handle (`SSHClient`), modelled by its behaviour: a command
and a working directory go in, `(exit_code, stdout, stderr)` comes out. -/
structure SSHClientModel where
  run : String → String → Int × String × String

/-- The errors the lifecycle controller raises.  `notStarted` is
`RuntimeError("Workspace not started")` (the spec's `NotStartedError`);
`unknownAgent` is `ValueError(f"Unknown agent type: ...")`;
`sshConnectFailed` is
`RuntimeError("Failed to establish SSH connection to container")` (the
spec's `ConnectionError`). -/
inductive WsError where
  | notStarted
  | unknownAgent (agent_type : String)
  | sshConnectFailed
deriving DecidableEq, Repr

/-- The runtime state of a `Workspace` object: name, configured container
work directory, and the two lazily-set live handles, `_ssh_client` and
`_container_id`, both `None` until `start()` assigns them. -/
structure Workspace where
  name : String
  work_dir : String
  ssh_client : Option SSHClientModel
  container_id : Option String

/-- `Workspace.__init__`: a freshly constructed workspace has no transport
and no container. -/
def Workspace.mkFresh (name work_dir : String) : Workspace :=
  ⟨name, work_dir, none, none⟩

/-- `Workspace.execute`: raise when no transport exists, otherwise run the
command over SSH with the configured work directory as default. -/
def Workspace.execute (ws : Workspace) (command : String)
    (workdir : Option String) : Except WsError (Int × String × String) :=
  match ws.ssh_client with
  | none => Except.error WsError.notStarted
  | some c => Except.ok (c.run command (workdir.getD ws.work_dir))

/-- `Workspace.copy_to_container`: raise when no container exists, otherwise
ask the backend to copy (no flatten) and, when `record` is set, upsert the
ledger and persist it. -/
def Workspace.copy_to_container (ws : Workspace) (localResolved remote : String)
    (record : Bool) : Except WsError (List WsEffect) :=
  match ws.container_id with
  | none => Except.error WsError.notStarted
  | some _ =>
    Except.ok ([WsEffect.copyTo localResolved remote false] ++
      (if record then [WsEffect.addRecord localResolved remote, WsEffect.saveMetadata]
       else []))

/-- `Workspace.copy_from_container`: raise when no container exists,
otherwise ask the backend to copy out. -/
def Workspace.copy_from_container (ws : Workspace) (remote localPath : String) :
    Except WsError (List WsEffect) :=
  match ws.container_id with
  | none => Except.error WsError.notStarted
  | some _ => Except.ok [WsEffect.copyFrom remote localPath]

/-- The two known agent adapters (`CopilotAgent`, `ClaudeCodeAgent`). -/
inductive AgentKind where
  | copilot
  | claudecode
deriving DecidableEq, Repr

/-- `Workspace.get_agent`: raise when no transport exists; otherwise resolve
the adapter by type name, raising on an unknown name.  (The adapter cache
only memoises the constructed adapter and is dropped from the model.) -/
def Workspace.get_agent (ws : Workspace) (agent_type : String) :
    Except WsError AgentKind :=
  match ws.ssh_client with
  | none => Except.error WsError.notStarted
  | some _ =>
    if agent_type = "copilot" then Except.ok AgentKind.copilot
    else if agent_type = "claudecode" then Except.ok AgentKind.claudecode
    else Except.error (WsError.unknownAgent agent_type)

/-- `ContainerState` (core/types.py). -/
inductive ContainerState where
  | stopped
  | running
  | paused
  | not_found
  | error
deriving DecidableEq, Repr

/-- `Workspace.is_running`, instrumented with the list of container ids the
backend was asked about: with no container id it returns `false` without any
backend query; otherwise it asks the backend for the state and compares it
with `RUNNING`. -/
def Workspace.is_running (ws : Workspace) (get_state : String → ContainerState) :
    Bool × List String :=
  match ws.container_id with
  | none => (false, [])
  | some cid => (decide (get_state cid = ContainerState.running), [cid])

/-- The state of the git repository inside the container's work directory:
current `HEAD` (if any commit exists), whether the work tree differs from
`HEAD`, and the hash the next commit would receive. -/
structure GitState where
  head : Option String
  has_changes : Bool
  next_hash : String
deriving DecidableEq, Repr

/-- Semantics of the remote command
`cd wd && git add -A && git diff --cached --quiet || git commit -m "msg"`:
with no pending changes, `git diff --cached --quiet` exits 0 and
short-circuits the `||`, so the chain exits 0 with empty stdout and the
repository is untouched; with pending changes the diff exits 1, the commit
runs, prints its summary line and exits 0. -/
def runCommitCommand (g : GitState) (msg : String) :
    GitState × Int × String × String :=
  if g.has_changes then
    ({ head := some g.next_hash, has_changes := false,
       next_hash := g.next_hash ++ "x" },
     0, "[commit] " ++ msg, "")
  else (g, 0, "", "")

/-- Semantics of the remote command `cd wd && git rev-parse HEAD`: print the
`HEAD` hash on success, fail when no commit exists. -/
def runRevParseHead (g : GitState) : GitState × Int × String × String :=
  match g.head with
  | some h => (g, 0, h, "")
  | none => (g, 128, "", "fatal: bad revision")

/-- Python's `str.strip()` on a character list: drop whitespace from both
ends. -/
def pyStripList (l : List Char) : List Char :=
  ((l.dropWhile Char.isWhitespace).reverse.dropWhile Char.isWhitespace).reverse

/-- Python's `str.strip()`. -/
def pyStrip (s : String) : String :=
  String.mk (pyStripList s.data)

/-- `Workspace.commit_changes`: raise when no transport exists; otherwise run
the add/diff/commit chain; if it exited 0 with non-blank stdout, read back
`git rev-parse HEAD` and return the stripped hash (or `None` for empty
output); in every other case return `None`. -/
def Workspace.commit_changes (ws : Workspace) (g : GitState)
    (message : Option String) : Except WsError (GitState × Option String) :=
  match ws.ssh_client with
  | none => Except.error WsError.notStarted
  | some _ =>
    let msg := message.getD "Changes by vcoding"
    match runCommitCommand g msg with
    | (g1, exit_code, stdout, _) =>
      if exit_code == 0 && pyStrip stdout != "" then
        match runRevParseHead g1 with
        | (g2, _, hash_out, _) =>
          Except.ok (g2, if hash_out != "" then some (pyStrip hash_out) else none)
      else Except.ok (g1, none)

/-- What is on disk at `workspace_dir/metadata.json`: the file can be
missing, present but unparsable/unreadable, or present with parsed data. -/
inductive MetaFile where
  | absent
  | corrupt
  | valid (data : MetaData)
deriving DecidableEq, Repr

/-- `WorkspaceMetadata._load`: a missing file and an unparsable one both
leave `_data` as the empty dict; a parsable one is loaded. -/
def WorkspaceMetadata.load : MetaFile → MetaData
  | MetaFile.valid d => d
  | _ => {}

/-- `WorkspaceMetadata.exists`: whether the metadata *file* is present on
disk (a corrupt file is still present). -/
def metadataFileOnDisk : MetaFile → Bool
  | MetaFile.absent => false
  | _ => true

/-- `WorkspaceMetadata.initialize`: the fresh record written for a new
workspace. -/
def metadataFresh (target_path : String) (target_is_file : Bool)
    (now : String) : MetaData :=
  { target_path := some target_path,
    target_type := some (if target_is_file then "file" else "directory"),
    created_at := some now,
    last_accessed := some now,
    synced_files := [] }

/-- `WorkspaceManager.initialize` on a not-yet-initialised manager: load the
metadata file; if the file does not exist, write the fresh record, otherwise
only refresh `last_accessed`.  Returns the resulting in-memory metadata. -/
def managerInitMetadata (file : MetaFile) (target_path : String)
    (target_is_file : Bool) (now : String) : MetaData :=
  let d := WorkspaceMetadata.load file
  if metadataFileOnDisk file then { d with last_accessed := some now }
  else metadataFresh target_path target_is_file now

/-- The lifecycle steps `Workspace.start` asks of its collaborators, in call
order, reified so that the failure path's (absent) cleanup is a statement
about which effects were emitted. -/
inductive StartEffect where
  | ensure_dirs
  | create_key_pair (name : String)
  | build_image
  | create_container (cid : String)
  | start_container (cid : String)
  | inject_ssh_key (cid : String)
  | wait_ssh (max_retries : Nat)
  | resync (effects : List WsEffect)
  | git_init
  | stop_container (cid : String)
  | destroy_container (cid : String)
deriving DecidableEq, Repr

/-- The environment `start()` runs against: the container id the backend
will hand out, the exit code of the n-th SSH readiness probe, and the
behaviour of the transport once connected. -/
structure StartEnv where
  new_container_id : String
  ssh_probe : Nat → Int
  ssh_run : String → String → Int × String × String

/-- The loop of `SSHClient.wait_for_connection` from probe index `i` with
`n` retries left: probe (`execute("echo ok")`), succeed on exit code 0,
otherwise sleep and retry. -/
def waitFrom (ssh_probe : Nat → Int) (i : Nat) : Nat → Bool
  | 0 => false
  | n + 1 => if ssh_probe i = 0 then true else waitFrom ssh_probe (i + 1) n

/-- `SSHClient.wait_for_connection(max_retries, retry_interval)`: bounded
poll, `true` iff some probe among the first `max_retries` exits 0. -/
def wait_for_connection (ssh_probe : Nat → Int) (max_retries : Nat) : Bool :=
  waitFrom ssh_probe 0 max_retries

/-- `Workspace.start`: initialise directories and metadata, provision keys,
optionally build the image, create and start the container (assigning
`_container_id`), inject the SSH public key, construct the transport and
assign `_ssh_client`, then block on `wait_for_connection(60, 1.0)`.  If the
wait fails, `RuntimeError` propagates — nothing after it runs and no
cleanup of the created container is attempted.  On success, replay the sync
ledger and (when configured) initialise git in the container.  Returns the
result, the emitted effects, and the mutated workspace state. -/
def Workspace.start (ws : Workspace) (env : StartEnv) (md : MetaData)
    (ex : String → Bool) (target_path : String) (build auto_init_git : Bool) :
    Except WsError String × List StartEffect × Workspace :=
  let cid := env.new_container_id
  let pre := [StartEffect.ensure_dirs, StartEffect.create_key_pair ws.name] ++
    (if build then [StartEffect.build_image] else []) ++
    [StartEffect.create_container cid, StartEffect.start_container cid,
     StartEffect.inject_ssh_key cid, StartEffect.wait_ssh 60]
  let ws1 : Workspace :=
    { ws with container_id := some cid, ssh_client := some ⟨env.ssh_run⟩ }
  if wait_for_connection env.ssh_probe 60 then
    (Except.ok cid,
     pre ++ [StartEffect.resync (resync_files md.synced_files ex target_path)] ++
       (if auto_init_git then [StartEffect.git_init] else []),
     ws1)
  else
    (Except.error WsError.sshConnectFailed, pre, ws1)

lemma addSyncedFile_sources (records : List SyncRecord) (src dst : String)
    (h : src ∈ records.map SyncRecord.source) :
    (add_synced_file records src dst).map SyncRecord.source =
      records.map SyncRecord.source := by
  induction records with
  | nil => simp at h
  | cons e rest ih =>
    by_cases he : e.source = src
    · simp [add_synced_file, he]
    · simp only [List.map_cons, List.mem_cons] at h
      rcases h with h | h
    
      · exact absurd h.symm he
      · simp [add_synced_file, he, ih h]

lemma addSyncedFile_find_self (records : List SyncRecord) (src dst : String) :
    findDestination (add_synced_file records src dst) src = some dst := by
  induction records with
  | nil => simp [add_synced_file, findDestination, List.find?]
  | cons e rest ih =>
    by_cases he : e.source = src
    · simp [add_synced_file, he, findDestination, List.find?]
    · simpa [add_synced_file, he, findDestination, List.find?] using ih

lemma addSyncedFile_find_other (records : List SyncRecord) (src dst s : String)
    (hs : s ≠ src) :
    findDestination (add_synced_file records src dst) s =
      findDestination records s := by
  have hb : (src == s) = false := by simp [Ne.symm hs]
  induction records with
  | nil => simp [add_synced_file, findDestination, List.find?, hb]
  | cons e rest ih =>
    obtain ⟨a, b⟩ := e
    by_cases he : a = src
    · subst he
      simp [add_synced_file, findDestination, List.find?, hb]
    · cases hc : (a == s) with
      | true => simp [add_synced_file, he, findDestination, List.find?, hc]
      | false =>
        simpa [add_synced_file, he, findDestination, List.find?, hc] using ih

lemma addSyncedFile_not_mem (records : List SyncRecord) (src dst : String)
    (h : src ∉ records.map SyncRecord.source) :
    add_synced_file records src dst = records ++ [⟨src, dst⟩] := by
  induction records with
  | nil => simp [add_synced_file]
  | cons e rest ih =>
    simp only [List.map_cons, List.mem_cons] at h
    push_neg at h
    have he : ¬ e.source = src := Ne.symm h.1
    simp [add_synced_file, he, ih h.2]

/-- C1.  The sync ledger has upsert semantics on resolved sources: adding a
record whose resolved source is already present keeps the length and the
source list unchanged, rebinds that source's destination, and leaves every
other source's destination alone; adding a record with a new resolved source
appends exactly that one record at the end. -/
theorem c1_ledger_upsert (records : List SyncRecord) (cwd : List String)
    (source : Spelling) (destination : String) :
    (resolvedStr cwd source ∈ records.map SyncRecord.source →
      (add_synced_file_path records cwd source destination).length =
          records.length ∧
      (add_synced_file_path records cwd source destination).map
          SyncRecord.source = records.map SyncRecord.source ∧
      findDestination (add_synced_file_path records cwd source destination)
          (resolvedStr cwd source) = some destination ∧
      ∀ s, s ≠ resolvedStr cwd source →
        findDestination (add_synced_file_path records cwd source destination) s =
          findDestination records s) ∧
    (resolvedStr cwd source ∉ records.map SyncRecord.source →
      add_synced_file_path records cwd source destination =
        records ++ [⟨resolvedStr cwd source, destination⟩]) := by
  constructor
  · intro h
    refine ⟨?_, addSyncedFile_sources records _ _ h,
      addSyncedFile_find_self records _ _,
      fun s hs => addSyncedFile_find_other records _ _ s hs⟩
    have := addSyncedFile_sources records (resolvedStr cwd source) destination h
    calc (add_synced_file_path records cwd source destination).length
        = ((add_synced_file_path records cwd source destination).map
            SyncRecord.source).length := (List.length_map _ _).symm
      _ = (records.map SyncRecord.source).length := by
            rw [add_synced_file_path] at *; rw [this]
      _ = records.length := List.length_map _ _
  · intro h
    exact addSyncedFile_not_mem records _ _ h

/-- Witness for C1 at a concrete two-record ledger: re-adding the source
`/home/u/proj/a.py` (spelled relatively against cwd `/home/u/proj`) keeps
the ledger at two records and rebinds only its destination, and adding a
fresh source appends one record. -/
theorem c1_ledger_upsert_witness :
    (add_synced_file_path
        [⟨"/home/u/proj/a.py", "/workspace/a.py"⟩, ⟨"/home/u/proj", "/workspace"⟩]
        ["home", "u", "proj"] ⟨false, ["a.py"]⟩ "/workspace/new.py").length = 2 ∧
    findDestination
      (add_synced_file_path
        [⟨"/home/u/proj/a.py", "/workspace/a.py"⟩, ⟨"/home/u/proj", "/workspace"⟩]
        ["home", "u", "proj"] ⟨false, ["a.py"]⟩ "/workspace/new.py")
      "/home/u/proj" = some "/workspace" ∧
    add_synced_file_path
        [⟨"/home/u/proj/a.py", "/workspace/a.py"⟩]
        ["home", "u", "proj"] ⟨false, ["b.py"]⟩ "/workspace/b.py" =
      [⟨"/home/u/proj/a.py", "/workspace/a.py"⟩,
       ⟨"/home/u/proj/b.py", "/workspace/b.py"⟩] := by
  have h1 := c1_ledger_upsert
    [⟨"/home/u/proj/a.py", "/workspace/a.py"⟩, ⟨"/home/u/proj", "/workspace"⟩]
    ["home", "u", "proj"] ⟨false, ["a.py"]⟩ "/workspace/new.py"
  have h2 := c1_ledger_upsert [⟨"/home/u/proj/a.py", "/workspace/a.py"⟩]
    ["home", "u", "proj"] ⟨false, ["b.py"]⟩ "/workspace/b.py"
  refine ⟨(h1.1 (by decide)).1, ?_, ?_⟩
  · have := (h1.1 (by decide)).2.2.2 "/home/u/proj" (by decide)
    rw [this]; decide
  · have := h2.2 (by decide)
    rw [this]; decide

lemma pruneSplit_eq (l : List SyncRecord) (ex : String → Bool) :
    pruneSplit l ex =
      (l.filter (fun e => ex e.source),
       (l.filter (fun e => !(ex e.source))).map SyncRecord.source) := by
  induction l with
  | nil => simp [pruneSplit]
  | cons e rest ih =>
    cases hc : ex e.source <;> simp [pruneSplit, ih, hc, List.filter_cons]

lemma findDestination_filter (l : List SyncRecord) (ex : String → Bool)
    (s : String) (hs : ex s = true) :
    findDestination (l.filter (fun e => ex e.source)) s =
      findDestination l s := by
  induction l with
  | nil => simp
  | cons e rest ih =>
    cases hc : ex e.source
    · have hne : (e.source == s) = false := by
        cases hq : e.source == s
        · rfl
        · have heq : e.source = s := by simpa using hq
          rw [heq, hs] at hc
          cases hc
      simpa [List.filter_cons, hc, findDestination, List.find?, hne] using ih
    · cases hq : e.source == s
      · simpa [List.filter_cons, hc, findDestination, List.find?, hq] using ih
      · simp [List.filter_cons, hc, findDestination, List.find?, hq]

/-- C4.  Prune correctness: with `N` ledger records of which exactly `M`
have non-existing sources, pruning removes exactly those `M` (returning
their sources in ledger order), keeps the other `N − M` records unchanged
and still retrievable, and writes the metadata file iff `M > 0`. -/
theorem c4_prune_correctness (md : MetaData) (ex : String → Bool) :
    (prune_synced_files md ex).2.1 =
        (md.synced_files.filter (fun e => !(ex e.source))).map SyncRecord.source ∧
    (prune_synced_files md ex).2.1.length =
        (md.synced_files.filter (fun e => !(ex e.source))).length ∧
    (prune_synced_files md ex).1.synced_files =
        md.synced_files.filter (fun e => ex e.source) ∧
    (prune_synced_files md ex).1.synced_files.length =
        md.synced_files.length -
          (md.synced_files.filter (fun e => !(ex e.source))).length ∧
    (∀ e ∈ md.synced_files, ex e.source = true →
        e ∈ (prune_synced_files md ex).1.synced_files) ∧
    (∀ s, ex s = true →
        findDestination (prune_synced_files md ex).1.synced_files s =
          findDestination md.synced_files s) ∧
    ((prune_synced_files md ex).2.2 = true ↔
        0 < (md.synced_files.filter (fun e => !(ex e.source))).length) := by
  have hps := pruneSplit_eq md.synced_files ex
  have hlen : ∀ l : List SyncRecord,
      (l.filter (fun e => ex e.source)).length =
        l.length - (l.filter (fun e => !(ex e.source))).length := by
    intro l
    induction l with
    | nil => simp
    | cons e rest ih =>
      have hle := List.length_filter_le (fun e => !(ex e.source)) rest
      cases hc : ex e.source <;> simp [List.filter_cons, hc] <;> omega
  by_cases hemp :
      ((md.synced_files.filter (fun e => !(ex e.source))).map
        SyncRecord.source).isEmpty = true
  · have hnil : md.synced_files.filter (fun e => !(ex e.source)) = [] := by
      have := List.isEmpty_iff.mp hemp
      exact List.map_eq_nil_iff.mp this
    have hall : md.synced_files.filter (fun e => ex e.source) =
        md.synced_files := by
      refine List.filter_eq_self.mpr ?_
      intro a ha
      have := List.filter_eq_nil_iff.mp hnil a ha
      simpa using this
    refine ⟨?_, ?_, ?_, ?_, ?_, ?_, ?_⟩
    · simp [prune_synced_files, hps, hemp]
    · simp [prune_synced_files, hps, hemp]
    · simp [prune_synced_files, hps, hemp, hall]
    · simp [prune_synced_files, hps, hemp, hnil]
    · intro e he _
      simpa [prune_synced_files, hps, hemp] using he
    · intro s _
      simp [prune_synced_files, hps, hemp]
    · simp [prune_synced_files, hps, hemp, hnil]
  · refine ⟨?_, ?_, ?_, ?_, ?_, ?_, ?_⟩
    · simp [prune_synced_files, hps, hemp]
    · simp [prune_synced_files, hps, hemp]
    · simp [prune_synced_files, hps, hemp]
    · simp [prune_synced_files, hps, hemp, hlen]
    · intro e he hex
      simp [prune_synced_files, hps, hemp, List.mem_filter, he, hex]
    · intro s hs
      simp only [prune_synced_files, hps, hemp, if_neg]
      simpa using findDestination_filter md.synced_files ex s hs
    · constructor
      · intro _
        have : md.synced_files.filter (fun e => !(ex e.source)) ≠ [] := by
          intro hcon
          simp [hcon] at hemp
        exact List.length_pos.mpr this
      · intro _
        simp [prune_synced_files, hps, hemp]

/-- Witness for C4 at a concrete three-record ledger where only `/gone` no
longer exists: pruning removes exactly `["/gone"]`, keeps the other two
records in order, persists, and `/keep` is still retrievable. -/
theorem c4_prune_witness :
    (prune_synced_files
        { synced_files := [⟨"/keep", "/w1"⟩, ⟨"/gone", "/w2"⟩, ⟨"/keep2", "/w3"⟩] }
        (fun s => s != "/gone")).2.1 = ["/gone"] ∧
    (prune_synced_files
        { synced_files := [⟨"/keep", "/w1"⟩, ⟨"/gone", "/w2"⟩, ⟨"/keep2", "/w3"⟩] }
        (fun s => s != "/gone")).1.synced_files =
      [⟨"/keep", "/w1"⟩, ⟨"/keep2", "/w3"⟩] ∧
    (prune_synced_files
        { synced_files := [⟨"/keep", "/w1"⟩, ⟨"/gone", "/w2"⟩, ⟨"/keep2", "/w3"⟩] }
        (fun s => s != "/gone")).2.2 = true ∧
    findDestination
      (prune_synced_files
        { synced_files := [⟨"/keep", "/w1"⟩, ⟨"/gone", "/w2"⟩, ⟨"/keep2", "/w3"⟩] }
        (fun s => s != "/gone")).1.synced_files "/keep" = some "/w1" := by
  have h := c4_prune_correctness
    { synced_files := [⟨"/keep", "/w1"⟩, ⟨"/gone", "/w2"⟩, ⟨"/keep2", "/w3"⟩] }
    (fun s => s != "/gone")
  refine ⟨?_, ?_, ?_, ?_⟩
  · rw [h.1]; decide
  · rw [h.2.2.1]; decide
  · exact h.2.2.2.2.2.2.mpr (by decide)
  · rw [h.2.2.2.2.2.1 "/keep" (by decide)]; decide

/-- C2.  Replay flatten discipline: during start-up replay every ledger
record whose source still exists gets a `copyTo` with its recorded
destination and `flatten = (source == target_path)`; and every `copyTo` the
replay issues is for a still-existing source and carries `flatten = true`
exactly when that source is the workspace's root target path. -/
theorem c2_resync_flatten (records : List SyncRecord) (ex : String → Bool)
    (target_path : String) :
    (∀ e ∈ records, ex e.source = true →
      WsEffect.copyTo e.source e.destination (e.source == target_path) ∈
        resync_files records ex target_path) ∧
    (∀ src dst flat,
      WsEffect.copyTo src dst flat ∈ resync_files records ex target_path →
      ex src = true ∧ (flat = true ↔ src = target_path)) := by
  constructor
  · intro e he hex
    refine List.mem_map.mpr ⟨e, he, ?_⟩
    simp [hex]
  · intro src dst flat hmem
    rcases List.mem_map.mp hmem with ⟨e, _, heq⟩
    cases hex : ex e.source
    · rw [hex] at heq
      simp at heq
    · rw [hex] at heq
      simp only [if_true, WsEffect.copyTo.injEq] at heq
      obtain ⟨h1, _, h3⟩ := heq
      subst h1
      refine ⟨hex, ?_⟩
      rw [← h3]
      simp

/-- Witness for C2: with target `/t` and both sources existing, the replay
of `[(/t, /workspace), (/t/a.py, /workspace/a.py)]` issues the root sync
with `flatten = true` and the single-file sync with `flatten = false`. -/
theorem c2_resync_flatten_witness :
    WsEffect.copyTo "/t" "/workspace" true ∈
      resync_files [⟨"/t", "/workspace"⟩, ⟨"/t/a.py", "/workspace/a.py"⟩]
        (fun _ => true) "/t" ∧
    (false = true ↔ "/t/a.py" = "/t") := by
  have h := c2_resync_flatten
    [⟨"/t", "/workspace"⟩, ⟨"/t/a.py", "/workspace/a.py"⟩] (fun _ => true) "/t"
  constructor
  · simpa using h.1 ⟨"/t", "/workspace"⟩ (by simp) rfl
  · exact (h.2 "/t/a.py" "/workspace/a.py" false (by decide)).2

lemma foldlApplyNeutral (effs : List WsEffect)
    (h : ∀ (m : MetaData), ∀ e ∈ effs, applyWsEffect m e = m) :
    ∀ m : MetaData, effs.foldl applyWsEffect m = m := by
  induction effs with
  | nil => intro m; rfl
  | cons e rest ih =>
    intro m
    rw [List.foldl_cons, h m e (List.mem_cons_self e rest)]
    exact ih (fun m' e' he' => h m' e' (List.mem_cons_of_mem e he')) m

/-- C3.  Start-up replay is a frame for the ledger: interpreting every
effect replay emits leaves the metadata exactly as it was, because replay
only ever emits backend copies and log warnings — never a ledger add, a
ledger remove, or a metadata write. -/
theorem c3_replay_frame (md : MetaData) (ex : String → Bool)
    (target_path : String) :
    (resync_files md.synced_files ex target_path).foldl applyWsEffect md = md ∧
    ∀ eff ∈ resync_files md.synced_files ex target_path,
      (∀ s d, eff ≠ WsEffect.addRecord s d) ∧
      (∀ s, eff ≠ WsEffect.removeRecord s) ∧
      eff ≠ WsEffect.saveMetadata := by
  constructor
  · refine foldlApplyNeutral _ ?_ md
    intro m eff hmem
    rcases List.mem_map.mp hmem with ⟨e, _, heq⟩
    cases hex : ex e.source <;> rw [hex] at heq <;> subst heq <;>
      simp [applyWsEffect]
  · intro eff hmem
    rcases List.mem_map.mp hmem with ⟨e, _, heq⟩
    cases hex : ex e.source <;> rw [hex] at heq <;> subst heq <;> simp

/-- Witness for C3: a one-record ledger is untouched by interpreting its own
replay, and the root-sync copy effect is none of the mutating effects. -/
theorem c3_replay_frame_witness :
    (resync_files [⟨"/t", "/w"⟩] (fun _ => true) "/t").foldl applyWsEffect
        { synced_files := [⟨"/t", "/w"⟩] } =
      { synced_files := [⟨"/t", "/w"⟩] } ∧
    ∀ s d, WsEffect.copyTo "/t" "/w" true ≠ WsEffect.addRecord s d := by
  have h := c3_replay_frame { synced_files := [⟨"/t", "/w"⟩] }
    (fun _ => true) "/t"
  exact ⟨h.1, (h.2 (WsEffect.copyTo "/t" "/w" true) (by decide)).1⟩

/-- C5.  Not-started guard: on a freshly constructed workspace (no transport
and no container), `execute`, `copy_to_container`, `copy_from_container` and
`get_agent` all raise the not-started error instead of silently doing
nothing — for every command, path pair, record flag and agent type. -/
theorem c5_not_started_guard :
    ∀ (name work_dir command : String) (workdir : Option String)
      (localResolved remote agent_type : String) (record : Bool),
      Workspace.execute (Workspace.mkFresh name work_dir) command workdir =
          Except.error WsError.notStarted ∧
      Workspace.copy_to_container (Workspace.mkFresh name work_dir)
          localResolved remote record = Except.error WsError.notStarted ∧
      Workspace.copy_from_container (Workspace.mkFresh name work_dir)
          remote localResolved = Except.error WsError.notStarted ∧
      Workspace.get_agent (Workspace.mkFresh name work_dir) agent_type =
          Except.error WsError.notStarted := by
  intro name work_dir command workdir localResolved remote agent_type record
  exact ⟨rfl, rfl, rfl, rfl⟩

/-- C10.  `is_running` consults the backend only when a container id is set:
with no container id it returns `false` and issues no state query; with one,
it issues exactly one query for that id and compares the answer with
`RUNNING`. -/
theorem c10_is_running_guard (ws : Workspace)
    (get_state : String → ContainerState) :
    (ws.container_id = none →
      Workspace.is_running ws get_state = (false, [])) ∧
    (∀ cid, ws.container_id = some cid →
      Workspace.is_running ws get_state =
        (decide (get_state cid = ContainerState.running), [cid])) := by
  constructor
  · intro h
    simp [Workspace.is_running, h]
  · intro cid h
    simp [Workspace.is_running, h]

/-- Witness for C10: a fresh workspace reports not running with no backend
query even against a backend that would say `RUNNING`; one with container id
`c0` queries exactly `c0`. -/
theorem c10_is_running_guard_witness :
    Workspace.is_running (Workspace.mkFresh "w" "/workspace")
        (fun _ => ContainerState.running) = (false, []) ∧
    Workspace.is_running ⟨"w", "/workspace", none, some "c0"⟩
        (fun _ => ContainerState.running) = (true, ["c0"]) := by
  have h1 := c10_is_running_guard (Workspace.mkFresh "w" "/workspace")
    (fun _ => ContainerState.running)
  have h2 := c10_is_running_guard ⟨"w", "/workspace", none, some "c0"⟩
    (fun _ => ContainerState.running)
  refine ⟨h1.1 rfl, ?_⟩
  rw [h2.2 "c0" rfl]
  decide

lemma pyStripList_cons_ne (c : Char) (l : List Char)
    (hc : c.isWhitespace = false) : pyStripList (c :: l) ≠ [] := by
  unfold pyStripList
  rw [List.dropWhile_cons]
  rw [hc]
  intro hcon
  simp only [Bool.false_eq_true, if_false, List.reverse_eq_nil_iff,
    List.dropWhile_eq_nil_iff] at hcon
  have hmem : c ∈ (c :: l).reverse := by simp
  have := hcon c hmem
  rw [hc] at this
  exact absurd this (by decide)

lemma pyStrip_commit_ne (msg : String) : pyStrip ("[commit] " ++ msg) ≠ "" := by
  intro hcon
  have hdata : ("[commit] " ++ msg).data =
      '[' :: ("commit] ".data ++ msg.data) := by
    rw [String.data_append]
    rfl
  have h2 := congrArg String.data hcon
  rw [pyStrip] at h2
  rw [hdata] at h2
  exact pyStripList_cons_ne '[' ("commit] ".data ++ msg.data) (by decide) h2

lemma commitChanges_of_no_changes (ws : Workspace) (c : SSHClientModel)
    (hsc : ws.ssh_client = some c) (g : GitState) (m : Option String)
    (h : g.has_changes = false) :
    Workspace.commit_changes ws g m = Except.ok (g, none) := by
  have htrim : ((pyStrip "" != "") = false) := by decide
  simp [Workspace.commit_changes, hsc, runCommitCommand, h, htrim]

lemma commitChanges_of_changes (ws : Workspace) (c : SSHClientModel)
    (hsc : ws.ssh_client = some c) (g : GitState) (m : Option String)
    (h : g.has_changes = true) (hh : g.next_hash ≠ "") :
    Workspace.commit_changes ws g m =
      Except.ok ({ head := some g.next_hash, has_changes := false,
                   next_hash := g.next_hash ++ "x" },
                 some (pyStrip g.next_hash)) := by
  have htrim : ((pyStrip ("[commit] " ++ m.getD "Changes by vcoding") != "")
      = true) := by
    simpa using pyStrip_commit_ne (m.getD "Changes by vcoding")
  have hbne : ((g.next_hash != "") = true) := by simpa using hh
  simp [Workspace.commit_changes, hsc, runCommitCommand, h, htrim,
    runRevParseHead, hbne]

/-- C6.  Commit no-op semantics on a started workspace: with nothing to
commit, `commit_changes` returns `None` and raises no error; with pending
changes, it returns the new commit's hash and leaves the repository with no
pending changes, so an immediately repeated call returns `None`. -/
theorem c6_commit_noop (ws : Workspace) (c : SSHClientModel)
    (hsc : ws.ssh_client = some c) (g : GitState) (m : Option String)
    (hh : g.next_hash ≠ "") :
    (g.has_changes = false →
      Workspace.commit_changes ws g m = Except.ok (g, none)) ∧
    (g.has_changes = true →
      Workspace.commit_changes ws g m =
        Except.ok ({ head := some g.next_hash, has_changes := false,
                     next_hash := g.next_hash ++ "x" },
                   some (pyStrip g.next_hash)) ∧
      Workspace.commit_changes ws
          { head := some g.next_hash, has_changes := false,
            next_hash := g.next_hash ++ "x" } m = Except.ok
          ({ head := some g.next_hash, has_changes := false,
             next_hash := g.next_hash ++ "x" }, none)) := by
  constructor
  · intro h
    exact commitChanges_of_no_changes ws c hsc g m h
  · intro h
    refine ⟨commitChanges_of_changes ws c hsc g m h hh, ?_⟩
    exact commitChanges_of_no_changes ws c hsc _ m rfl

/-- Witness for C6: on a started workspace whose repository has pending
changes and next hash `abc1234`, the first commit call returns the hash and
the second returns `None`. -/
theorem c6_commit_noop_witness :
    Workspace.commit_changes
        ⟨"w", "/workspace", some ⟨fun _ _ => (0, "", "")⟩, some "c0"⟩
        ⟨none, true, "abc1234"⟩ none =
      Except.ok (⟨some "abc1234", false, "abc1234x"⟩, some "abc1234") ∧
    Workspace.commit_changes
        ⟨"w", "/workspace", some ⟨fun _ _ => (0, "", "")⟩, some "c0"⟩
        ⟨some "abc1234", false, "abc1234x"⟩ none =
      Except.ok (⟨some "abc1234", false, "abc1234x"⟩, none) := by
  have h := c6_commit_noop
    ⟨"w", "/workspace", some ⟨fun _ _ => (0, "", "")⟩, some "c0"⟩
    ⟨fun _ _ => (0, "", "")⟩ rfl ⟨none, true, "abc1234"⟩ none (by decide)
  have h2 := (h.2 rfl).1
  have h3 := (h.2 rfl).2
  constructor
  · rw [h2]
    congr 1
  · exact h3

/-- C7 counterexample: with a corrupt metadata file for target `/proj`,
initialisation does NOT produce the fresh record the claim promises — the
file still exists, so only `last_accessed` is refreshed; in particular the
resulting record has no target path recorded. -/
theorem c7_counterexample :
    managerInitMetadata MetaFile.corrupt "/proj" false "2026-01-01T00:00:00" ≠
      metadataFresh "/proj" false "2026-01-01T00:00:00" ∧
    (managerInitMetadata MetaFile.corrupt "/proj" false
        "2026-01-01T00:00:00").target_path = none := by
  decide

/-- C7 (amended).  A corrupt or unreadable metadata file is not fatal: it is
loaded as an empty record and the workspace proceeds.  But it is not treated
as absent either — since the file exists, initialisation only refreshes
`last_accessed`, leaving target path, target type, creation timestamp unset
and the sync list empty; only a truly absent file is reinitialised to the
fresh record. -/
theorem c7_corrupt_metadata_amended :
    ∀ (target_path now : String) (target_is_file : Bool),
      managerInitMetadata MetaFile.corrupt target_path target_is_file now =
        { target_path := none, target_type := none, created_at := none,
          last_accessed := some now, synced_files := [] } ∧
      managerInitMetadata MetaFile.absent target_path target_is_file now =
        metadataFresh target_path target_is_file now := by
  intro target_path now target_is_file
  exact ⟨rfl, rfl⟩

/-- C8 counterexample: a concrete `start` whose SSH probes all fail raises
the fatal connection error, yet its emitted effect list contains the
container create and start and no stop or destroy — the container is left
dangling, and the workspace even keeps its id. -/
theorem c8_counterexample :
    (Workspace.start (Workspace.mkFresh "w" "/workspace")
        ⟨"c0", fun _ => -1, fun _ _ => (0, "", "")⟩ {} (fun _ => false) "/t"
        true false).1 = Except.error WsError.sshConnectFailed ∧
    (Workspace.start (Workspace.mkFresh "w" "/workspace")
        ⟨"c0", fun _ => -1, fun _ _ => (0, "", "")⟩ {} (fun _ => false) "/t"
        true false).2.1 =
      [StartEffect.ensure_dirs, StartEffect.create_key_pair "w",
       StartEffect.build_image, StartEffect.create_container "c0",
       StartEffect.start_container "c0", StartEffect.inject_ssh_key "c0",
       StartEffect.wait_ssh 60] ∧
    (Workspace.start (Workspace.mkFresh "w" "/workspace")
        ⟨"c0", fun _ => -1, fun _ _ => (0, "", "")⟩ {} (fun _ => false) "/t"
        true false).2.2.container_id = some "c0" := by
  refine ⟨?_, ?_, ?_⟩ <;> rfl

/-- C8 (amended).  When the SSH readiness wait exhausts its retry budget,
`start` raises the fatal connection error, but performs no cleanup: the
container it created and started stays (no stop or destroy effect is
emitted) and the workspace retains the container id. -/
theorem c8_failed_start_leaves_container (ws : Workspace) (env : StartEnv)
    (md : MetaData) (ex : String → Bool) (target_path : String)
    (build auto_init_git : Bool)
    (h : wait_for_connection env.ssh_probe 60 = false) :
    (Workspace.start ws env md ex target_path build auto_init_git).1 =
        Except.error WsError.sshConnectFailed ∧
    StartEffect.create_container env.new_container_id ∈
      (Workspace.start ws env md ex target_path build auto_init_git).2.1 ∧
    StartEffect.start_container env.new_container_id ∈
      (Workspace.start ws env md ex target_path build auto_init_git).2.1 ∧
    (∀ c, StartEffect.stop_container c ∉
      (Workspace.start ws env md ex target_path build auto_init_git).2.1) ∧
    (∀ c, StartEffect.destroy_container c ∉
      (Workspace.start ws env md ex target_path build auto_init_git).2.1) ∧
    (Workspace.start ws env md ex target_path build
        auto_init_git).2.2.container_id = some env.new_container_id := by
  refine ⟨?_, ?_, ?_, ?_, ?_, ?_⟩ <;>
    cases build <;> simp [Workspace.start, h]

/-- Witness for C8 (amended) at a concrete never-ready environment. -/
theorem c8_failed_start_witness :
    (Workspace.start (Workspace.mkFresh "w2" "/workspace")
        ⟨"c1", fun _ => -1, fun _ _ => (0, "", "")⟩ {} (fun _ => true) "/t"
        false true).1 = Except.error WsError.sshConnectFailed ∧
    StartEffect.create_container "c1" ∈
      (Workspace.start (Workspace.mkFresh "w2" "/workspace")
        ⟨"c1", fun _ => -1, fun _ _ => (0, "", "")⟩ {} (fun _ => true) "/t"
        false true).2.1 ∧
    ∀ c, StartEffect.destroy_container c ∉
      (Workspace.start (Workspace.mkFresh "w2" "/workspace")
        ⟨"c1", fun _ => -1, fun _ _ => (0, "", "")⟩ {} (fun _ => true) "/t"
        false true).2.1 := by
  have h := c8_failed_start_leaves_container (Workspace.mkFresh "w2" "/workspace")
    ⟨"c1", fun _ => -1, fun _ _ => (0, "", "")⟩ {} (fun _ => true) "/t"
    false true (by decide)
  exact ⟨h.1, h.2.1, h.2.2.2.2.1⟩

/-- C9.  Identity determinism of `compute_target_hash`: it is a pure function
of the resolved location — (i) a trailing separator on the spelling does not
change the digest, (ii) a relative spelling and the absolute spelling of the
same location under the current working directory give the same digest, and
(iii) the digest is computed from exactly the resolved absolute path string
with backslashes normalised and trailing separators stripped, so (iv) any
two spellings with the same resolution hash identically. -/
theorem c9_identity_determinism (digest : String → String) (cwd : List String)
    (sp : Spelling) :
    compute_target_hash digest cwd ⟨sp.absolute, sp.parts ++ [""]⟩ =
      compute_target_hash digest cwd sp ∧
    (sp.absolute = false → (∀ c ∈ cwd, c ≠ "" ∧ c ≠ ".") →
      compute_target_hash digest cwd ⟨true, cwd ++ sp.parts⟩ =
        compute_target_hash digest cwd sp) ∧
    compute_target_hash digest cwd sp =
      digest (rstripSlash ((resolvedStr cwd sp).replace "\\" "/")) ∧
    (∀ sp' : Spelling, resolvedStr cwd sp' = resolvedStr cwd sp →
      compute_target_hash digest cwd sp' = compute_target_hash digest cwd sp) := by
  refine ⟨?_, ?_, rfl, ?_⟩
  · have hp : purePathParts (sp.parts ++ [""]) = purePathParts sp.parts := by
      simp [purePathParts, List.filter_append]
    simp [compute_target_hash, resolvedStr, resolveParts, hp]
  · intro hab hcwd
    have hc : cwd.filter (fun c => c != "" && c != ".") = cwd := by
      refine List.filter_eq_self.mpr ?_
      intro a ha
      have := hcwd a ha
      simp [this.1, this.2]
    simp [compute_target_hash, resolvedStr, resolveParts, purePathParts,
      List.filter_append, hab, hc]
  · intro sp' h
    simp [compute_target_hash, h]

/-- Witness for C9: under cwd `/home/u`, the relative spelling `proj`, the
absolute spelling `/home/u/proj` and the trailing-slash spelling `proj/` all
hash identically (digest instantiated with the identity function). -/
theorem c9_identity_determinism_witness :
    compute_target_hash (fun s => s) ["home", "u"] ⟨true, ["home", "u", "proj"]⟩ =
      compute_target_hash (fun s => s) ["home", "u"] ⟨false, ["proj"]⟩ ∧
    compute_target_hash (fun s => s) ["home", "u"] ⟨false, ["proj", ""]⟩ =
      compute_target_hash (fun s => s) ["home", "u"] ⟨false, ["proj"]⟩ := by
  have h := c9_identity_determinism (fun s => s) ["home", "u"] ⟨false, ["proj"]⟩
  exact ⟨h.2.1 rfl (by decide), h.1⟩
